import Mathlib

/-!
# Verification of the Orbax checkpoint handler layer

A shallow embedding of the checkpoint-handler sources
(`json_checkpoint_handler.py`, `proto_checkpoint_handler.py`,
`pytree_checkpointer.py`) together with the parts of the surrounding
protocol they rely on, and proofs of the specified properties.

The filesystem is modelled as an association list from paths to file
contents; the JAX process rank (`jax.process_index()`) is an explicit
`Nat` parameter; the Python `json` codec is modelled by an executable
serializer (`dumps`, with CPython's default `", "` / `": "` separators)
and an executable recursive-descent reader (`loads`), proved inverse on
the value domain embedded here (null, booleans, integers, strings,
arrays, ordered objects).
-/

namespace Orbax

/-- A filesystem path, as the list of its components.  `directory / name`
in the sources is `Path.child`. -/
abbrev Path := List String

/-- `directory / name` (epath child-path construction). -/
def Path.child (d : Path) (n : String) : Path := d ++ [n]

/-- The Python exception kinds the embedded code can raise. -/
inductive PyError where
  | valueError (msg : String)
  | fileNotFoundError
  | jsonDecodeError
  | ioError
  deriving DecidableEq, Repr

/-- Plain filesystem contents: each entry maps a path to the text stored
there.  Earlier entries shadow later ones (there is at most one live
entry per path once written through `writeText`). -/
abbrev FileSystem := List (Path × String)

/-- `path.write_text(s)`: store `s` at `p`, replacing any previous
contents. -/
def writeText : FileSystem → Path → String → FileSystem
  | [], p, s => [(p, s)]
  | (q, t) :: fs, p, s => if q = p then (p, s) :: fs else (q, t) :: writeText fs p s

/-- `path.read_text()`: the contents at `p`, if the file exists. -/
def readText : FileSystem → Path → Option String
  | [], _ => none
  | (q, t) :: fs, p => if q = p then some t else readText fs p

/-- World state threaded through effectful calls: the filesystem plus an
oracle listing the paths on which a physical write raises an I/O error
(empty in the normal run; nonempty worlds model the failure branch the
spec's Future-propagation contract is about). -/
structure World where
  fs : FileSystem
  ioFailures : List Path
  deriving DecidableEq, Repr

/-- `path.write_text(s)` as an effectful call: on success it returns the
number of characters written (CPython's `write_text` return value), on a
faulted path it raises `IOError` and leaves the filesystem unchanged. -/
def writeTextIO (w : World) (p : Path) (s : String) : World × Except PyError Nat :=
  if p ∈ w.ioFailures then (w, .error .ioError)
  else ({ w with fs := writeText w.fs p s }, .ok s.length)

/-! ## The JSON value domain and the `json.dumps` / `json.loads` model -/

/-- A JSON value: the payload domain of `JsonCheckpointHandler`.  Objects
keep their members in insertion order, as CPython dicts do. -/
inductive Json where
  | null
  | bool (b : Bool)
  | int (i : Int)
  | str (s : String)
  | arr (elems : List Json)
  | obj (members : List (String × Json))

/-- JSON string escaping as `json.dumps` performs it for the characters
that affect the grammar (quote, backslash, and the common control
characters; other characters pass through verbatim in this embedding). -/
def escChar (c : Char) : List Char :=
  if c = '"' then ['\\', '"']
  else if c = '\\' then ['\\', '\\']
  else if c = '\n' then ['\\', 'n']
  else if c = '\t' then ['\\', 't']
  else if c = '\r' then ['\\', 'r']
  else [c]

/-- A rendered JSON string literal: quote, escaped body, quote. -/
def renderStr (s : String) : List Char :=
  '"' :: (s.data.flatMap escChar ++ ['"'])

/-- The decimal digit character for `k < 10`. -/
def digitChar (k : Nat) : Char := Char.ofNat (k + 48)

/-- Decimal digit characters of `n`, most significant first, in front of
`acc`. -/
def decDigitsAcc (n : Nat) (acc : List Char) : List Char :=
  if h : n < 10 then digitChar n :: acc
  else decDigitsAcc (n / 10) (digitChar (n % 10) :: acc)
termination_by n
decreasing_by exact Nat.div_lt_self (by omega) (by omega)

/-- Decimal digit characters of `n`, most significant first. -/
def decDigits (n : Nat) : List Char := decDigitsAcc n []

/-- An integer rendered the way `json.dumps` prints `int`: optional
minus sign, then decimal digits. -/
def renderInt (i : Int) : List Char :=
  (if i < 0 then ['-'] else []) ++ decDigits i.natAbs

mutual
/-- `json.dumps` body: a value as a character list, with CPython's
default separators (`", "` between items, `": "` after a key). -/
def renderJson : Json → List Char
  | .null => "null".data
  | .bool b => if b then "true".data else "false".data
  | .int i => renderInt i
  | .str s => renderStr s
  | .arr es => '[' :: (renderItems es ++ [']'])
  | .obj ms => '{' :: (renderFields ms ++ ['}'])
/-- The comma-separated elements of an array (no brackets). -/
def renderItems : List Json → List Char
  | [] => []
  | e :: es => renderJson e ++ renderItemsTail es
/-- `", "`-prefixed continuation of an element list. -/
def renderItemsTail : List Json → List Char
  | [] => []
  | e :: es => ',' :: ' ' :: (renderJson e ++ renderItemsTail es)
/-- The comma-separated members of an object (no braces). -/
def renderFields : List (String × Json) → List Char
  | [] => []
  | (k, v) :: ms => renderStr k ++ ':' :: ' ' :: (renderJson v ++ renderFieldsTail ms)
/-- `", "`-prefixed continuation of a member list. -/
def renderFieldsTail : List (String × Json) → List Char
  | [] => []
  | (k, v) :: ms => ',' :: ' ' :: (renderStr k ++ ':' :: ' ' :: (renderJson v ++ renderFieldsTail ms))
end

/-- The model of `json.dumps`. -/
def dumps (j : Json) : String := ⟨renderJson j⟩

/-- JSON whitespace. -/
def isWs (c : Char) : Bool :=
  (c == ' ') || (c == '\t') || (c == '\n') || (c == '\r')

/-- Drop leading JSON whitespace. -/
def skipWs : List Char → List Char
  | [] => []
  | c :: cs => if isWs c then skipWs cs else c :: cs

/-- Decimal digit test. -/
def isDig (c : Char) : Bool := '0' ≤ c && c ≤ '9'

/-- Split off the longest leading run of decimal digits. -/
def takeDigits : List Char → List Char × List Char
  | [] => ([], [])
  | c :: cs =>
      if isDig c then
        let p := takeDigits cs
        (c :: p.1, p.2)
      else ([], c :: cs)

/-- The number denoted by a digit run. -/
def digitsToNat (ds : List Char) : Nat :=
  ds.foldl (fun a c => 10 * a + (c.toNat - 48)) 0

/-- A remainder that cannot extend a digit run: empty or headed by a
non-digit (every JSON delimiter qualifies). -/
def stopsNum : List Char → Bool
  | [] => true
  | c :: _ => !isDig c

/-- Undo one string escape. -/
def unescChar (c : Char) : Option Char :=
  if c = '"' then some '"'
  else if c = '\\' then some '\\'
  else if c = '/' then some '/'
  else if c = 'n' then some '\n'
  else if c = 't' then some '\t'
  else if c = 'r' then some '\r'
  else if c = 'b' then some (Char.ofNat 8)
  else if c = 'f' then some (Char.ofNat 12)
  else none

/-- Read a string body after the opening quote, unescaping as we go;
returns the string and the characters after the closing quote. -/
def readStrBody (acc : List Char) : List Char → Option (String × List Char)
  | '"' :: r => some (⟨acc.reverse⟩, r)
  | '\\' :: e :: r =>
      match unescChar e with
      | some c => readStrBody (c :: acc) r
      | none => none
  | c :: r => readStrBody (c :: acc) r
  | [] => none

mutual
/-- `json.loads` body: read one value from `cs` (consuming its leading
whitespace), returning it and the unread remainder.  `fuel` only bounds
the recursion; the top-level entry point supplies enough for any
input. -/
def readJson (fuel : Nat) (cs : List Char) : Option (Json × List Char) :=
  match fuel with
  | 0 => none
  | fuel + 1 =>
    match skipWs cs with
    | 'n' :: 'u' :: 'l' :: 'l' :: r => some (.null, r)
    | 't' :: 'r' :: 'u' :: 'e' :: r => some (.bool true, r)
    | 'f' :: 'a' :: 'l' :: 's' :: 'e' :: r => some (.bool false, r)
    | '"' :: r =>
        match readStrBody [] r with
        | some (s, r2) => some (.str s, r2)
        | none => none
    | '[' :: r =>
        match skipWs r with
        | [] => none
        | c :: r2 =>
            if c = ']' then some (.arr [], r2)
            else
              match readItems fuel (c :: r2) with
              | some (es, r3) => some (.arr es, r3)
              | none => none
    | '{' :: r =>
        match skipWs r with
        | [] => none
        | c :: r2 =>
            if c = '}' then some (.obj [], r2)
            else
              match readFields fuel (c :: r2) with
              | some (ms, r3) => some (.obj ms, r3)
              | none => none
    | '-' :: r =>
        match takeDigits r with
        | ([], _) => none
        | (ds, r2) => some (.int (-(digitsToNat ds : Int)), r2)
    | c :: r =>
        if isDig c then
          match takeDigits (c :: r) with
          | (ds, r2) => some (.int (digitsToNat ds), r2)
        else none
    | [] => none
/-- Read one-or-more comma-separated array elements and the closing
bracket. -/
def readItems (fuel : Nat) (cs : List Char) : Option (List Json × List Char) :=
  match fuel with
  | 0 => none
  | fuel + 1 =>
    match readJson fuel cs with
    | none => none
    | some (v, r) =>
        match skipWs r with
        | ',' :: r2 =>
            match readItems fuel (skipWs r2) with
            | some (vs, r3) => some (v :: vs, r3)
            | none => none
        | ']' :: r2 => some ([v], r2)
        | _ => none
/-- Read one-or-more comma-separated object members and the closing
brace. -/
def readFields (fuel : Nat) (cs : List Char) : Option (List (String × Json) × List Char) :=
  match fuel with
  | 0 => none
  | fuel + 1 =>
    match skipWs cs with
    | '"' :: r =>
        match readStrBody [] r with
        | none => none
        | some (k, r1) =>
            match skipWs r1 with
            | ':' :: r2 =>
                match readJson fuel (skipWs r2) with
                | none => none
                | some (v, r3) =>
                    match skipWs r3 with
                    | ',' :: r4 =>
                        match readFields fuel (skipWs r4) with
                        | some (ms, r5) => some ((k, v) :: ms, r5)
                        | none => none
                    | '}' :: r4 => some ([(k, v)], r4)
                    | _ => none
            | _ => none
    | _ => none
end

/-- The model of `json.loads`: one value, then at most trailing
whitespace. -/
def loads (s : String) : Option Json :=
  match readJson (s.data.length + 1) s.data with
  | some (v, r) => if (skipWs r).isEmpty then some v else none
  | none => none

/-! ## `JsonCheckpointHandler` -/

/-- The value a handler's `structure` method produces. -/
inductive StructureResult where
  | notImplementedErrorKind
  deriving DecidableEq, Repr

/-- Python's `x or y` on an optional string: `None` and `""` are falsy. -/
def pyStrOr (x : Option String) (y : String) : String :=
  match x with
  | none => y
  | some s => if s = "" then y else s

/-- `JsonCheckpointHandler` instance state: the filename fixed by
`__init__`. -/
structure JsonCheckpointHandler where
  filename : String
  deriving DecidableEq, Repr

/-- `JsonCheckpointHandler.__init__`: `self._filename = filename or
'metadata'`. -/
def JsonCheckpointHandler.create (filename : Option String) : JsonCheckpointHandler :=
  ⟨pyStrOr filename "metadata"⟩

/-- `JsonCheckpointHandler.save`: on the primary process
(`jax.process_index() == 0`, the `pid` parameter) write
`json.dumps(item)` to `directory / self._filename`; on every other
process do nothing. -/
def JsonCheckpointHandler.save (h : JsonCheckpointHandler) (pid : Nat)
    (directory : Path) (item : Json) (w : World) : World × Except PyError Unit :=
  if pid = 0 then
    match writeTextIO w (directory.child h.filename) (dumps item) with
    | (w2, .ok _) => (w2, .ok ())
    | (w2, .error e) => (w2, .error e)
  else (w, .ok ())

/-- `JsonCheckpointHandler.restore`: `del item`, then
`json.loads((directory / self._filename).read_text())`.  A missing file
raises `FileNotFoundError`; undecodable contents raise the decode
error. -/
def JsonCheckpointHandler.restore (h : JsonCheckpointHandler)
    (directory : Path) (item : Option String) (fs : FileSystem) : Except PyError Json :=
  match readText fs (directory.child h.filename) with
  | none => .error .fileNotFoundError
  | some text =>
      match loads text with
      | some j => .ok j
      | none => .error .jsonDecodeError

/-- `JsonCheckpointHandler.structure`: `return NotImplementedError` (the
class object as a value; nothing is raised and the directory is never
touched). -/
def JsonCheckpointHandler.structureOf (h : JsonCheckpointHandler)
    (directory : Path) : Except PyError StructureResult :=
  .ok .notImplementedErrorKind

/-! ## `ProtoCheckpointHandler` -/

/-- An abstract protocol message, carried as its `text_format`
encoding (the codec itself is an external collaborator). -/
structure ProtoMsg where
  text : String
  deriving DecidableEq, Repr

/-- `text_format.MessageToString`. -/
def messageToString (m : ProtoMsg) : String := m.text

/-- A proto class object (`Type[message.Message]`): calling it makes an
empty instance that `text_format.Parse` fills from the text. -/
structure ProtoClass where
  deriving DecidableEq, Repr

/-- `text_format.Parse(text, item())`. -/
def textFormatParse (text : String) (cls : ProtoClass) : ProtoMsg := ⟨text⟩

/-- `ProtoCheckpointHandler` instance state: the filename required by
`__init__` (the single-worker executor it also creates is represented
by running the deferred functions it would hold). -/
structure ProtoCheckpointHandler where
  filename : String
  deriving DecidableEq, Repr

/-- A commit future: the deferred work submitted to the handler's
executor, as a state transformer producing the `_save_fn` result. -/
abbrev CommitFuture := World → World × Except PyError Nat

/-- The `_save_fn` closure built inside
`ProtoCheckpointHandler.async_save`: the primary-process gate is inside
it, so it runs on the worker, after dispatch.  On the primary process it
returns `path.write_text(...)`'s character count; elsewhere it returns
`0` without touching the filesystem. -/
def ProtoCheckpointHandler.saveFn (h : ProtoCheckpointHandler) (pid : Nat)
    (directory : Path) (item : ProtoMsg) : CommitFuture :=
  fun w =>
    if pid = 0 then writeTextIO w (directory.child h.filename) (messageToString item)
    else (w, .ok 0)

/-- `ProtoCheckpointHandler.async_save`: submit `_save_fn item` to the
single-worker executor and return the singleton list of commit
futures (on every process alike). -/
def ProtoCheckpointHandler.asyncSave (h : ProtoCheckpointHandler) (pid : Nat)
    (directory : Path) (item : ProtoMsg) : List CommitFuture :=
  [h.saveFn pid directory item]

/-- `for f in commit_futures: f.result()`: run the futures in order,
stopping at (and re-raising) the first captured failure. -/
def resolveFutures : List CommitFuture → World → World × Except PyError Unit
  | [], w => (w, .ok ())
  | f :: rest, w =>
      match f w with
      | (w2, .ok _) => resolveFutures rest w2
      | (w2, .error e) => (w2, .error e)

/-- `ProtoCheckpointHandler.save`: `asyncio.run` of `async_save`
followed by `f.result()` on each returned future. -/
def ProtoCheckpointHandler.save (h : ProtoCheckpointHandler) (pid : Nat)
    (directory : Path) (item : ProtoMsg) (w : World) : World × Except PyError Unit :=
  resolveFutures (h.asyncSave pid directory item) w

/-- The `ValueError` message `ProtoCheckpointHandler.restore` raises
when `item` is omitted. -/
def protoMissingItemMsg : String :=
  "Must provide `item` in order to deserialize proto to the correct type."

/-- `ProtoCheckpointHandler.restore`: without the proto-class hint it
raises `ValueError` before touching the filesystem; with it, it parses
`(directory / self._filename).read_text()` into an instance of the
class. -/
def ProtoCheckpointHandler.restore (h : ProtoCheckpointHandler)
    (directory : Path) (item : Option ProtoClass) (fs : FileSystem) :
    Except PyError ProtoMsg :=
  match item with
  | none => .error (.valueError protoMissingItemMsg)
  | some cls =>
      match readText fs (directory.child h.filename) with
      | none => .error .fileNotFoundError
      | some text => .ok (textFormatParse text cls)

/-- `ProtoCheckpointHandler.structure`: `return NotImplementedError`,
as a value. -/
def ProtoCheckpointHandler.structureOf (h : ProtoCheckpointHandler)
    (directory : Path) : Except PyError StructureResult :=
  .ok .notImplementedErrorKind

/-! ## The orchestration core (`Checkpointer`), modelled from the spec

The `Checkpointer` class itself is not among the sources here — only its
test suite (`checkpointer_test_utils.py`) and a subclass
(`pytree_checkpointer.py`) are — so its save/restore contract is
modelled from the spec. -/

/-- Modelled from the spec: the store of committed checkpoints the
missing `Checkpointer` class maintains through the directory states
`{absent, saving, complete}` — a synchronous save takes a directory from
`absent` to `complete` in one call, so only completed entries are
observable between calls.  `lookupCommit st d` is the committed item at
`d`, if `d` is complete. -/
abbrev CommitStore (α : Type) := List (Path × α)

/-- The committed item at `d`, when `d` holds a complete checkpoint. -/
def lookupCommit {α : Type} : CommitStore α → Path → Option α
  | [], _ => none
  | (q, x) :: st, d => if q = d then some x else lookupCommit st d

/-- Commit `x` at `d`, replacing any previous checkpoint there. -/
def putCommit {α : Type} : CommitStore α → Path → α → CommitStore α
  | [], d, x => [(d, x)]
  | (q, y) :: st, d, x => if q = d then (d, x) :: st else (q, y) :: putCommit st d x

/-- Modelled from the spec: `Checkpointer.save(directory, item, force)`
(the class is missing from the sources; its tests require a
`ValueError` here).  If `directory` is already complete and `force` is
false, fail with the overwrite-conflict error and leave the store
untouched; otherwise commit `item` at `directory`. -/
def checkpointerSave {α : Type} (st : CommitStore α) (d : Path) (item : α)
    (force : Bool) : CommitStore α × Except PyError Unit :=
  if (lookupCommit st d).isSome ∧ force = false then
    (st, .error (.valueError "Destination already exists."))
  else (putCommit st d item, .ok ())

/-- Modelled from the spec: `Checkpointer.restore(directory)` (the class
is missing from the sources).  An absent or incomplete directory fails
with the not-found error; a complete one yields its committed item. -/
def checkpointerRestore {α : Type} (st : CommitStore α) (d : Path) :
    Except PyError α :=
  match lookupCommit st d with
  | none => .error .fileNotFoundError
  | some x => .ok x

/-! ## `PyTreeCheckpointer` -/

/-- Modelled from the spec: `PyTreeCheckpointHandler` (missing from the
sources) as the opaque handler its constructor configures — observable
behavior is a function of the `use_ocdbt` flag it is built with. -/
structure PyTreeCheckpointHandler where
  use_ocdbt : Bool
  deriving DecidableEq, Repr

/-- Modelled from the spec: the state `Checkpointer.__init__(handler,
primary_host=...)` (missing from the sources) binds — one handler and
the primary-host rank; every save/restore/structure behavior of a
`Checkpointer` is a function of this state. -/
structure CheckpointerState where
  handler : PyTreeCheckpointHandler
  primary_host : Nat
  deriving DecidableEq, Repr

/-- `PyTreeCheckpointer.__init__(primary_host=0, use_ocdbt=True)`:
`super().__init__(PyTreeCheckpointHandler(use_ocdbt=use_ocdbt),
primary_host=primary_host)`. -/
def PyTreeCheckpointer.create (primary_host : Nat := 0) (use_ocdbt : Bool := true) :
    CheckpointerState :=
  CheckpointerState.mk (PyTreeCheckpointHandler.mk use_ocdbt) primary_host

/-- The written file's name as the claim words it: "the filename given
at construction or `metadata` when none was given" (to be compared with
`JsonCheckpointHandler.create`, which follows the source's
`filename or 'metadata'`). -/
def claimFileName : Option String → String
  | some s => s
  | none => "metadata"

/-! ## Basic store and filesystem lemmas -/

theorem lookupCommit_putCommit_self {α : Type} (st : CommitStore α) (d : Path) (x : α) :
    lookupCommit (putCommit st d x) d = some x := by
  induction st with
  | nil => simp [putCommit, lookupCommit]
  | cons e st ih =>
      obtain ⟨q, y⟩ := e
      by_cases h : q = d
      · simp [putCommit, lookupCommit, h]
      · simp [putCommit, lookupCommit, h, ih]

theorem readText_writeText_self (fs : FileSystem) (p : Path) (s : String) :
    readText (writeText fs p s) p = some s := by
  induction fs with
  | nil => simp [writeText, readText]
  | cons e fs ih =>
      obtain ⟨q, t⟩ := e
      by_cases h : q = p
      · simp [writeText, readText, h]
      · simp [writeText, readText, h, ih]

/-! ## Claims about the orchestration core and the handlers' control
paths -/

/-- Claim C1: with a complete checkpoint already committed at `d`,
`save(d, item2, force=False)` fails with the overwrite-conflict
`ValueError`, leaves the store untouched, and the prior checkpoint still
restores; `save(d, item2, force=True)` succeeds and a subsequent restore
returns `item2`.  (`Checkpointer` is absent from the sources; modelled
from the spec, with the error kind its test suite asserts.) -/
theorem claim_C1_overwrite_guard {α : Type} (st : CommitStore α) (d : Path)
    (item1 item2 : α) (hc : lookupCommit st d = some item1) :
    (checkpointerSave st d item2 false).2
        = .error (.valueError "Destination already exists.")
    ∧ (checkpointerSave st d item2 false).1 = st
    ∧ checkpointerRestore (checkpointerSave st d item2 false).1 d = .ok item1
    ∧ (checkpointerSave st d item2 true).2 = .ok ()
    ∧ checkpointerRestore (checkpointerSave st d item2 true).1 d = .ok item2 := by
  refine ⟨?_, ?_, ?_, ?_, ?_⟩ <;>
    simp [checkpointerSave, checkpointerRestore, hc,
      lookupCommit_putCommit_self]

/-- Closed instance of `claim_C1_overwrite_guard` at a one-entry
store. -/
theorem claim_C1_overwrite_guard_witness :
    lookupCommit [(["ckpt"], 3)] ["ckpt"] = some 3
    ∧ ((checkpointerSave [(["ckpt"], 3)] ["ckpt"] 4 false).2
          = .error (.valueError "Destination already exists.")
        ∧ (checkpointerSave [(["ckpt"], 3)] ["ckpt"] 4 false).1 = [(["ckpt"], 3)]
        ∧ checkpointerRestore (checkpointerSave [(["ckpt"], 3)] ["ckpt"] 4 false).1
            ["ckpt"] = .ok 3
        ∧ (checkpointerSave [(["ckpt"], 3)] ["ckpt"] 4 true).2 = .ok ()
        ∧ checkpointerRestore (checkpointerSave [(["ckpt"], 3)] ["ckpt"] 4 true).1
            ["ckpt"] = .ok 4) :=
  ⟨by decide, claim_C1_overwrite_guard [(["ckpt"], 3)] ["ckpt"] 3 4 (by decide)⟩

/-- Claim C3: on a non-primary process (`pid ≠ 0`), the JSON handler's
`save` and the deferred work dispatched by the proto handler's
`async_save` leave the world untouched: the former returns normally with
the state unchanged, and the latter's single commit future resolves to
`0` without any write. -/
theorem claim_C3_nonprimary_save_no_writes (jh : JsonCheckpointHandler)
    (ph : ProtoCheckpointHandler) (pid : Nat) (d : Path) (item : Json)
    (msg : ProtoMsg) (w : World) (hpid : pid ≠ 0) :
    jh.save pid d item w = (w, .ok ())
    ∧ (ph.asyncSave pid d msg).map (fun f => f w) = [(w, .ok 0)] := by
  constructor
  · simp [JsonCheckpointHandler.save, hpid]
  · simp [ProtoCheckpointHandler.asyncSave, ProtoCheckpointHandler.saveFn, hpid]

/-- Closed instance of `claim_C3_nonprimary_save_no_writes` on process
rank 1. -/
theorem claim_C3_nonprimary_save_no_writes_witness :
    (1 : Nat) ≠ 0
    ∧ ((JsonCheckpointHandler.mk "metadata").save 1 ["ckpt"] .null ⟨[], []⟩
          = (⟨[], []⟩, .ok ())
        ∧ ((ProtoCheckpointHandler.mk "msg").asyncSave 1 ["ckpt"] ⟨"x"⟩).map
            (fun f => f ⟨[], []⟩) = [(⟨[], []⟩, .ok 0)]) :=
  ⟨by decide,
    claim_C3_nonprimary_save_no_writes ⟨"metadata"⟩ ⟨"msg"⟩ 1 ["ckpt"] .null ⟨"x"⟩
      ⟨[], []⟩ (by decide)⟩

/-- Claim C4: `ProtoCheckpointHandler.restore(directory, item=None)`
fails with the `ValueError` whose message names the missing `item`
requirement, and consults no file: the outcome is the same on every
filesystem. -/
theorem claim_C4_restore_requires_item (ph : ProtoCheckpointHandler) (d : Path)
    (fs fs2 : FileSystem) :
    ph.restore d none fs = .error (.valueError protoMissingItemMsg)
    ∧ "item".data <:+: protoMissingItemMsg.data
    ∧ ph.restore d none fs = ph.restore d none fs2 :=
  ⟨rfl, by decide, rfl⟩

/-- Claim C5: the `structure` method of both handlers returns the
`NotImplementedError` kind as a value — a total call that terminates
normally with that value for every directory. -/
theorem claim_C5_structure_returns_error_value (jh : JsonCheckpointHandler)
    (ph : ProtoCheckpointHandler) (d : Path) :
    jh.structureOf d = .ok .notImplementedErrorKind
    ∧ ph.structureOf d = .ok .notImplementedErrorKind :=
  ⟨rfl, rfl⟩

/-- Claim C6: `async_save` returns exactly one commit future on every
process — the rank gate sits inside the deferred `_save_fn`, not before
dispatch — and running that future performs the write on rank 0 but
resolves to `0` with the world untouched on every other rank. -/
theorem claim_C6_async_save_uniform (ph : ProtoCheckpointHandler) (pid : Nat)
    (d : Path) (item : ProtoMsg) (w : World) :
    (ph.asyncSave pid d item).length = 1
    ∧ ph.asyncSave pid d item = [ph.saveFn pid d item]
    ∧ (ph.asyncSave pid d item).map (fun f => f w)
        = [if pid = 0 then writeTextIO w (d.child ph.filename) (messageToString item)
           else (w, .ok 0)] := by
  refine ⟨rfl, rfl, ?_⟩
  by_cases h : pid = 0 <;>
    simp [ProtoCheckpointHandler.asyncSave, ProtoCheckpointHandler.saveFn, h]

/-- Claim C7: the proto handler's synchronous `save` is `async_save`
followed by a blocking `result()` on every returned future: it equals
the resolved dispatch, and (second conjunct) its outcome is exactly the
single future's outcome — the effect when it succeeds, the first
failure when it fails. -/
theorem claim_C7_save_resolves_async (ph : ProtoCheckpointHandler) (pid : Nat)
    (d : Path) (item : ProtoMsg) (w : World) :
    ph.save pid d item w = resolveFutures (ph.asyncSave pid d item) w
    ∧ ph.save pid d item w
        = (match ph.saveFn pid d item w with
           | (w2, .ok _) => (w2, .ok ())
           | (w2, .error e) => (w2, .error e)) := by
  refine ⟨rfl, ?_⟩
  simp only [ProtoCheckpointHandler.save, ProtoCheckpointHandler.asyncSave,
    resolveFutures]

/-- Claim C9: `JsonCheckpointHandler.restore` ignores its `item`
argument (`del item` in the source): any two arguments, `None`
included, give the same result on the same directory contents. -/
theorem claim_C9_restore_item_noninterference (jh : JsonCheckpointHandler)
    (d : Path) (fs : FileSystem) (item1 item2 : Option String) :
    jh.restore d item1 fs = jh.restore d item2 fs := rfl

/-- Claim C10: constructing `PyTreeCheckpointer(primary_host,
use_ocdbt)` yields exactly the state `Checkpointer(
PyTreeCheckpointHandler(use_ocdbt=use_ocdbt),
primary_host=primary_host)` binds — so every behavior, being a function
of that state, coincides — and the defaults are `primary_host=0`,
`use_ocdbt=True`. -/
theorem claim_C10_pytree_checkpointer_is_shorthand (primary_host : Nat)
    (use_ocdbt : Bool) :
    PyTreeCheckpointer.create primary_host use_ocdbt
        = CheckpointerState.mk (PyTreeCheckpointHandler.mk use_ocdbt) primary_host
    ∧ PyTreeCheckpointer.create
        = CheckpointerState.mk (PyTreeCheckpointHandler.mk true) 0
    ∧ (PyTreeCheckpointer.create primary_host use_ocdbt).handler.use_ocdbt
        = use_ocdbt
    ∧ (PyTreeCheckpointer.create primary_host use_ocdbt).primary_host
        = primary_host :=
  ⟨rfl, rfl, rfl, rfl⟩

/-! ## Round trip of the JSON codec model

The chain below shows `loads (dumps v) = some v`: digit-run inversion,
string-escape inversion, head-shape facts about rendered output, and
finally the mutual induction over the value. -/

theorem digitChar_toNat (k : Nat) (h : k < 10) : (digitChar k).toNat = k + 48 := by
  interval_cases k <;> decide

theorem isDig_digitChar (k : Nat) (h : k < 10) : isDig (digitChar k) = true := by
  interval_cases k <;> decide

theorem decDigitsAcc_append (n : Nat) :
    ∀ acc : List Char, decDigitsAcc n acc = decDigitsAcc n [] ++ acc := by
  induction n using Nat.strongRecOn with
  | _ n ih =>
    intro acc
    conv_lhs => rw [decDigitsAcc]
    conv_rhs => rw [decDigitsAcc]
    by_cases h : n < 10
    · simp [h]
    · simp only [dif_neg h]
      have hlt : n / 10 < n := Nat.div_lt_self (by omega) (by omega)
      rw [ih (n / 10) hlt (digitChar (n % 10) :: acc), ih (n / 10) hlt [digitChar (n % 10)]]
      simp

theorem decDigits_unfold (n : Nat) :
    decDigits n
      = (if n < 10 then [] else decDigits (n / 10)) ++ [digitChar (n % 10)] := by
  rw [decDigits]
  conv_lhs => rw [decDigitsAcc]
  by_cases h : n < 10
  · simp [h, Nat.mod_eq_of_lt h]
  · simp only [dif_neg h, if_neg h]
    rw [decDigitsAcc_append]
    rfl

theorem decDigits_ne_nil (n : Nat) : decDigits n ≠ [] := by
  rw [decDigits_unfold]; simp

theorem decDigits_all_dig (n : Nat) : ∀ c ∈ decDigits n, isDig c = true := by
  induction n using Nat.strongRecOn with
  | _ n ih =>
    rw [decDigits_unfold]
    intro c hc
    rcases List.mem_append.mp hc with hl | hr
    · by_cases h : n < 10
      · simp [h] at hl
      · exact ih (n / 10) (Nat.div_lt_self (by omega) (by omega)) c (by simpa [h] using hl)
    · rw [List.mem_singleton] at hr
      subst hr
      exact isDig_digitChar (n % 10) (Nat.mod_lt _ (by omega))

theorem digitsToNat_decDigits (n : Nat) : digitsToNat (decDigits n) = n := by
  induction n using Nat.strongRecOn with
  | _ n ih =>
    rw [digitsToNat, decDigits_unfold, List.foldl_append]
    by_cases h : n < 10
    · simp only [if_pos h, List.foldl_nil, List.foldl_cons]
      rw [digitChar_toNat (n % 10) (Nat.mod_lt _ (by omega))]
      omega
    · simp only [if_neg h, List.foldl_cons, List.foldl_nil]
      have := ih (n / 10) (Nat.div_lt_self (by omega) (by omega))
      rw [digitsToNat] at this
      rw [this, digitChar_toNat (n % 10) (Nat.mod_lt _ (by omega))]
      omega

theorem decDigits_head (n : Nat) :
    ∃ c t, decDigits n = c :: t ∧ isDig c = true := by
  rcases h : decDigits n with _ | ⟨c, t⟩
  · exact absurd h (decDigits_ne_nil n)
  · exact ⟨c, t, rfl, decDigits_all_dig n c (h ▸ List.mem_cons_self ..)⟩

theorem takeDigits_not_dig (c : Char) (t : List Char) (h : isDig c = false) :
    takeDigits (c :: t) = ([], c :: t) := by
  simp [takeDigits, h]

theorem takeDigits_of_stops (cs : List Char) (h : stopsNum cs = true) :
    takeDigits cs = ([], cs) := by
  match cs with
  | [] => rfl
  | c :: t =>
      simp only [stopsNum, Bool.not_eq_true'] at h
      exact takeDigits_not_dig c t h

theorem takeDigits_run (ds : List Char) (hall : ∀ c ∈ ds, isDig c = true)
    (tail : List Char) (htail : takeDigits tail = ([], tail)) :
    takeDigits (ds ++ tail) = (ds, tail) := by
  induction ds with
  | nil =>
      simpa using htail
  | cons d ds2 ih =>
      have hd : isDig d = true := hall d (List.mem_cons_self ..)
      have htd := ih fun x hx => hall x (List.mem_cons_of_mem d hx)
      simp [takeDigits, hd, htd]

theorem readStrBody_escChar (c : Char) (acc rest : List Char) :
    readStrBody acc (escChar c ++ rest) = readStrBody (c :: acc) rest := by
  by_cases h1 : c = '"'
  · subst h1; rfl
  by_cases h2 : c = '\\'
  · subst h2; rfl
  by_cases h3 : c = '\n'
  · subst h3; rfl
  by_cases h4 : c = '\t'
  · subst h4; rfl
  by_cases h5 : c = '\r'
  · subst h5; rfl
  have he : escChar c = [c] := by
    simp [escChar, h1, h2, h3, h4, h5]
  rw [he]
  simp only [List.cons_append, List.nil_append]
  rw [readStrBody.eq_def]
  simp [h1, h2]

theorem readStrBody_flatMap (cs : List Char) : ∀ acc rest : List Char,
    readStrBody acc (cs.flatMap escChar ++ '"' :: rest)
      = some (⟨acc.reverse ++ cs⟩, rest) := by
  induction cs with
  | nil =>
      intro acc rest
      simp [readStrBody]
  | cons c cs ih =>
      intro acc rest
      rw [List.flatMap_cons, List.append_assoc, readStrBody_escChar, ih]
      simp

theorem readStrBody_renderStr (s : String) (rest : List Char) :
    readStrBody [] (s.data.flatMap escChar ++ '"' :: rest) = some (s, rest) := by
  rw [readStrBody_flatMap]
  rfl

theorem isDig_char_facts (c : Char) (h : isDig c = true) :
    isWs c = false ∧ c ≠ ']' ∧ c ≠ '}' ∧ c ≠ 'n' ∧ c ≠ 't' ∧ c ≠ 'f'
    ∧ c ≠ '"' ∧ c ≠ '[' ∧ c ≠ '{' ∧ c ≠ '-' := by
  have hne : ∀ x : Char, isDig x = false → c ≠ x := by
    intro x hx h2
    subst h2
    rw [hx] at h
    exact Bool.false_ne_true h
  have hws : isWs c = false := by
    simp only [isWs, Bool.or_eq_false_iff, beq_eq_false_iff_ne]
    exact ⟨⟨⟨hne ' ' (by decide), hne '\t' (by decide)⟩, hne '\n' (by decide)⟩,
      hne '\r' (by decide)⟩
  exact ⟨hws, hne ']' (by decide), hne '}' (by decide), hne 'n' (by decide),
    hne 't' (by decide), hne 'f' (by decide), hne '"' (by decide),
    hne '[' (by decide), hne '{' (by decide), hne '-' (by decide)⟩

theorem skipWs_not_ws (c : Char) (t : List Char) (h : isWs c = false) :
    skipWs (c :: t) = c :: t := by
  simp [skipWs, h]

theorem renderInt_head (i : Int) :
    ∃ c t, renderInt i = c :: t ∧ (c = '-' ∨ isDig c = true) := by
  by_cases h : i < 0
  · exact ⟨'-', decDigits i.natAbs, by simp [renderInt, h], .inl rfl⟩
  · obtain ⟨c, t, hct, hc⟩ := decDigits_head i.natAbs
    exact ⟨c, t, by simp [renderInt, h, hct], .inr hc⟩

theorem renderJson_head (v : Json) :
    ∃ c t, renderJson v = c :: t ∧ isWs c = false ∧ c ≠ ']' ∧ c ≠ '}' := by
  cases v with
  | null => exact ⟨'n', ['u', 'l', 'l'], by simp [renderJson], by decide, by decide, by decide⟩
  | bool b =>
      cases b with
      | false =>
          exact ⟨'f', ['a', 'l', 's', 'e'], by simp [renderJson], by decide, by decide, by decide⟩
      | true =>
          exact ⟨'t', ['r', 'u', 'e'], by simp [renderJson], by decide, by decide, by decide⟩
  | int i =>
      obtain ⟨c, t, hct, hc⟩ := renderInt_head i
      rcases hc with rfl | hd
      · exact ⟨'-', t, by simp [renderJson, hct], by decide, by decide, by decide⟩
      · obtain ⟨hws, h1, h2, _⟩ := isDig_char_facts c hd
        exact ⟨c, t, by simp [renderJson, hct], hws, h1, h2⟩
  | str s =>
      exact ⟨'"', s.data.flatMap escChar ++ ['"'], by simp [renderJson, renderStr],
        by decide, by decide, by decide⟩
  | arr es =>
      exact ⟨'[', renderItems es ++ [']'], by simp [renderJson], by decide, by decide,
        by decide⟩
  | obj ms =>
      exact ⟨'{', renderFields ms ++ ['}'], by simp [renderJson], by decide, by decide,
        by decide⟩

theorem skipWs_renderJson (v : Json) (x : List Char) :
    skipWs (renderJson v ++ x) = renderJson v ++ x := by
  obtain ⟨c, t, hct, hws, _, _⟩ := renderJson_head v
  rw [hct, List.cons_append, skipWs_not_ws c _ hws]

theorem readJson_num_dispatch (f : Nat) (c0 : Char) (t : List Char)
    (hd : isDig c0 = true) :
    readJson (f + 1) (c0 :: t)
      = some (.int (digitsToNat (takeDigits (c0 :: t)).1),
          (takeDigits (c0 :: t)).2) := by
  obtain ⟨hws, hrb, hcb, hn, ht, hf2, hq, hlb, hob, hm⟩ := isDig_char_facts c0 hd
  simp only [readJson]
  rw [skipWs_not_ws c0 t hws]
  rcases hT : takeDigits (c0 :: t) with ⟨ds, r2⟩
  simp [hn, ht, hf2, hq, hlb, hob, hm, hd, hT]

theorem readJson_neg_dispatch (f : Nat) (t : List Char) :
    readJson (f + 1) ('-' :: t)
      = (match takeDigits t with
         | ([], _) => none
         | (ds, r2) => some (.int (-(digitsToNat ds : Int)), r2)) := rfl

theorem readJson_renderInt (i : Int) (f : Nat) (rest : List Char)
    (hr : stopsNum rest = true) :
    readJson (f + 1) (renderInt i ++ rest) = some (.int i, rest) := by
  by_cases hneg : i < 0
  · have harg : renderInt i ++ rest = '-' :: (decDigits i.natAbs ++ rest) := by
      simp [renderInt, hneg]
    rw [harg, readJson_neg_dispatch]
    rw [takeDigits_run (decDigits i.natAbs) (decDigits_all_dig _) rest
      (takeDigits_of_stops rest hr)]
    obtain ⟨c, t, hct, hc⟩ := decDigits_head i.natAbs
    rw [hct]
    show some (Json.int (-(digitsToNat (c :: t) : Int)), rest) = some (.int i, rest)
    rw [← hct, digitsToNat_decDigits]
    have hi : -((i.natAbs : Nat) : Int) = i := by omega
    rw [hi]
  · obtain ⟨c, t, hct, hc⟩ := decDigits_head i.natAbs
    have harg : renderInt i ++ rest = c :: (t ++ rest) := by
      simp [renderInt, hneg, hct]
    rw [harg, readJson_num_dispatch f c (t ++ rest) hc]
    have hT : takeDigits (c :: (t ++ rest)) = (c :: t, rest) := by
      have hrun := takeDigits_run (decDigits i.natAbs) (decDigits_all_dig _) rest
        (takeDigits_of_stops rest hr)
      rw [hct] at hrun
      simpa using hrun
    rw [hT]
    show some (Json.int (digitsToNat (c :: t) : Int), rest) = some (.int i, rest)
    rw [← hct, digitsToNat_decDigits]
    have hi : ((i.natAbs : Nat) : Int) = i := by omega
    rw [hi]

theorem stopsNum_not_dig (c : Char) (t : List Char) (h : isDig c = false) :
    stopsNum (c :: t) = true := by
  simp [stopsNum, h]

theorem skipWs_cons_ws (c : Char) (t : List Char) (h : isWs c = true) :
    skipWs (c :: t) = skipWs t := by
  simp [skipWs, h]

theorem skipWs_renderItems (e : Json) (es : List Json) (x : List Char) :
    skipWs (renderItems (e :: es) ++ x) = renderItems (e :: es) ++ x := by
  obtain ⟨c, t, hct, hws, _, _⟩ := renderJson_head e
  have harg : renderItems (e :: es) ++ x = c :: (t ++ (renderItemsTail es ++ x)) := by
    simp [renderItems, hct]
  rw [harg, skipWs_not_ws c _ hws]

theorem skipWs_renderFields (k : String) (v : Json) (ms : List (String × Json))
    (x : List Char) :
    skipWs (renderFields ((k, v) :: ms) ++ x) = renderFields ((k, v) :: ms) ++ x := by
  have harg : renderFields ((k, v) :: ms) ++ x
      = '"' :: (k.data.flatMap escChar
          ++ ('"' :: ':' :: ' ' :: (renderJson v ++ (renderFieldsTail ms ++ x)))) := by
    simp [renderFields, renderStr]
  rw [harg, skipWs_not_ws '"' _ (by decide)]

theorem readJson_null_lit (f : Nat) (rest : List Char) :
    readJson (f + 1) ('n' :: 'u' :: 'l' :: 'l' :: rest) = some (.null, rest) := rfl

theorem readJson_true_lit (f : Nat) (rest : List Char) :
    readJson (f + 1) ('t' :: 'r' :: 'u' :: 'e' :: rest) = some (.bool true, rest) := rfl

theorem readJson_false_lit (f : Nat) (rest : List Char) :
    readJson (f + 1) ('f' :: 'a' :: 'l' :: 's' :: 'e' :: rest)
      = some (.bool false, rest) := rfl

theorem readJson_quote (f : Nat) (r : List Char) :
    readJson (f + 1) ('"' :: r)
      = (match readStrBody [] r with
         | some (s, r2) => some (.str s, r2)
         | none => none) := rfl

theorem readJson_empty_arr (f : Nat) (rest : List Char) :
    readJson (f + 1) ('[' :: ']' :: rest) = some (.arr [], rest) := rfl

theorem readJson_empty_obj (f : Nat) (rest : List Char) :
    readJson (f + 1) ('{' :: '}' :: rest) = some (.obj [], rest) := rfl

theorem readJson_lbracket_cons (f : Nat) (c : Char) (r : List Char)
    (hws : isWs c = false) (hne : c ≠ ']') :
    readJson (f + 1) ('[' :: c :: r)
      = (match readItems f (c :: r) with
         | some (vs, r3) => some (.arr vs, r3)
         | none => none) := by
  have step : readJson (f + 1) ('[' :: c :: r)
      = (match skipWs (c :: r) with
         | [] => none
         | c2 :: r2 =>
             if c2 = ']' then some (.arr [], r2)
             else
               match readItems f (c2 :: r2) with
               | some (vs, r3) => some (.arr vs, r3)
               | none => none) := rfl
  rw [step, skipWs_not_ws c r hws]
  simp only [if_neg hne]

theorem readJson_lbrace_cons (f : Nat) (c : Char) (r : List Char)
    (hws : isWs c = false) (hne : c ≠ '}') :
    readJson (f + 1) ('{' :: c :: r)
      = (match readFields f (c :: r) with
         | some (ms, r3) => some (.obj ms, r3)
         | none => none) := by
  have step : readJson (f + 1) ('{' :: c :: r)
      = (match skipWs (c :: r) with
         | [] => none
         | c2 :: r2 =>
             if c2 = '}' then some (.obj [], r2)
             else
               match readFields f (c2 :: r2) with
               | some (ms, r3) => some (.obj ms, r3)
               | none => none) := rfl
  rw [step, skipWs_not_ws c r hws]
  simp only [if_neg hne]

theorem readItems_step (f : Nat) (cs : List Char) :
    readItems (f + 1) cs
      = (match readJson f cs with
         | none => none
         | some (v, r) =>
             match skipWs r with
             | ',' :: r2 =>
                 match readItems f (skipWs r2) with
                 | some (vs, r3) => some (v :: vs, r3)
                 | none => none
             | ']' :: r2 => some ([v], r2)
             | _ => none) := rfl

theorem readFields_key (f : Nat) (body : List Char) :
    readFields (f + 1) ('"' :: body)
      = (match readStrBody [] body with
         | none => none
         | some (k2, r1) =>
             match skipWs r1 with
             | ':' :: r2 =>
                 match readJson f (skipWs r2) with
                 | none => none
                 | some (v2, r3) =>
                     match skipWs r3 with
                     | ',' :: r4 =>
                         match readFields f (skipWs r4) with
                         | some (ms2, r5) => some ((k2, v2) :: ms2, r5)
                         | none => none
                     | '}' :: r4 => some ([(k2, v2)], r4)
                     | _ => none
             | _ => none) := rfl

mutual

theorem readJson_renderJson : ∀ (v : Json) (fuel : Nat) (rest : List Char),
    (renderJson v).length < fuel → stopsNum rest = true →
    readJson fuel (renderJson v ++ rest) = some (v, rest)
  | .null, fuel, rest, hf, _ => by
      cases fuel with
      | zero => exact absurd hf (Nat.not_lt_zero _)
      | succ f =>
          have h0 : renderJson Json.null = ['n', 'u', 'l', 'l'] := by
            simp [renderJson]
          rw [h0]
          exact readJson_null_lit f rest
  | .bool true, fuel, rest, hf, _ => by
      cases fuel with
      | zero => exact absurd hf (Nat.not_lt_zero _)
      | succ f =>
          have h0 : renderJson (Json.bool true) = ['t', 'r', 'u', 'e'] := by
            simp [renderJson]
          rw [h0]
          exact readJson_true_lit f rest
  | .bool false, fuel, rest, hf, _ => by
      cases fuel with
      | zero => exact absurd hf (Nat.not_lt_zero _)
      | succ f =>
          have h0 : renderJson (Json.bool false) = ['f', 'a', 'l', 's', 'e'] := by
            simp [renderJson]
          rw [h0]
          exact readJson_false_lit f rest
  | .int i, fuel, rest, hf, hr => by
      cases fuel with
      | zero => exact absurd hf (Nat.not_lt_zero _)
      | succ f =>
          have h0 : renderJson (Json.int i) = renderInt i := by
            simp [renderJson]
          rw [h0]
          exact readJson_renderInt i f rest hr
  | .str s, fuel, rest, hf, _ => by
      cases fuel with
      | zero => exact absurd hf (Nat.not_lt_zero _)
      | succ f =>
          have h0 : renderJson (Json.str s) ++ rest
              = '"' :: (s.data.flatMap escChar ++ '"' :: rest) := by
            simp [renderJson, renderStr]
          rw [h0, readJson_quote, readStrBody_renderStr]
  | .arr [], fuel, rest, hf, _ => by
      cases fuel with
      | zero => exact absurd hf (Nat.not_lt_zero _)
      | succ f =>
          have h0 : renderJson (Json.arr []) ++ rest = '[' :: ']' :: rest := by
            simp [renderJson, renderItems]
          rw [h0, readJson_empty_arr]
  | .arr (e :: es), fuel, rest, hf, _ => by
      cases fuel with
      | zero => exact absurd hf (Nat.not_lt_zero _)
      | succ f =>
          obtain ⟨c, t, hct, hws, hrb, _⟩ := renderJson_head e
          have harg : renderJson (Json.arr (e :: es)) ++ rest
              = '[' :: (c :: (t ++ (renderItemsTail es ++ ']' :: rest))) := by
            simp [renderJson, renderItems, hct]
          have hitems : c :: (t ++ (renderItemsTail es ++ ']' :: rest))
              = renderItems (e :: es) ++ ']' :: rest := by
            simp [renderItems, hct]
          have h2 : (renderJson (Json.arr (e :: es))).length
              = (renderItems (e :: es)).length + 2 := by
            simp [renderJson]
          rw [harg, readJson_lbracket_cons f c _ hws hrb, hitems,
            readItems_renderItems e es f rest (by omega)]
  | .obj [], fuel, rest, hf, _ => by
      cases fuel with
      | zero => exact absurd hf (Nat.not_lt_zero _)
      | succ f =>
          have h0 : renderJson (Json.obj []) ++ rest = '{' :: '}' :: rest := by
            simp [renderJson, renderFields]
          rw [h0, readJson_empty_obj]
  | .obj ((k, v) :: ms), fuel, rest, hf, _ => by
      cases fuel with
      | zero => exact absurd hf (Nat.not_lt_zero _)
      | succ f =>
          have harg : renderJson (Json.obj ((k, v) :: ms)) ++ rest
              = '{' :: ('"' :: (k.data.flatMap escChar
                  ++ '"' :: ':' :: ' ' :: (renderJson v
                      ++ (renderFieldsTail ms ++ '}' :: rest)))) := by
            simp [renderJson, renderFields, renderStr]
          have hfields : ('"' :: (k.data.flatMap escChar
                  ++ '"' :: ':' :: ' ' :: (renderJson v
                      ++ (renderFieldsTail ms ++ '}' :: rest))))
              = renderFields ((k, v) :: ms) ++ '}' :: rest := by
            simp [renderFields, renderStr]
          have h2 : (renderJson (Json.obj ((k, v) :: ms))).length
              = (renderFields ((k, v) :: ms)).length + 2 := by
            simp [renderJson]
          rw [harg, readJson_lbrace_cons f '"' _ (by decide) (by decide), hfields,
            readFields_renderFields k v ms f rest (by omega)]
termination_by v _ _ _ _ => sizeOf v

theorem readItems_renderItems : ∀ (e : Json) (es : List Json) (f : Nat)
    (rest : List Char),
    (renderItems (e :: es)).length + 1 < f →
    readItems f (renderItems (e :: es) ++ ']' :: rest) = some (e :: es, rest)
  | e, [], f, rest, hf => by
      cases f with
      | zero => omega
      | succ f =>
          have harg : renderItems (e :: []) ++ ']' :: rest
              = renderJson e ++ ']' :: rest := by
            simp [renderItems, renderItemsTail]
          have h2 : (renderItems (e :: [])).length = (renderJson e).length := by
            simp [renderItems, renderItemsTail]
          have hv := readJson_renderJson e f (']' :: rest) (by omega)
            (stopsNum_not_dig ']' rest (by decide))
          rw [harg, readItems_step, hv]
          simp [skipWs, isWs]
  | e, x :: xs, f, rest, hf => by
      cases f with
      | zero => omega
      | succ f =>
          have harg : renderItems (e :: x :: xs) ++ ']' :: rest
              = renderJson e
                  ++ (',' :: ' ' :: (renderItems (x :: xs) ++ ']' :: rest)) := by
            simp [renderItems, renderItemsTail]
          have h2 : (renderItems (e :: x :: xs)).length
              = (renderJson e).length + 2 + (renderItems (x :: xs)).length := by
            simp only [renderItems, renderItemsTail, List.length_append,
              List.length_cons]
            omega
          have hv := readJson_renderJson e f
            (',' :: ' ' :: (renderItems (x :: xs) ++ ']' :: rest)) (by omega)
            (stopsNum_not_dig ',' _ (by decide))
          have hrec := readItems_renderItems x xs f rest (by omega)
          rw [harg, readItems_step, hv]
          simp [skipWs, isWs, skipWs_renderItems, hrec]
termination_by e es _ _ _ => sizeOf e + sizeOf es

theorem readFields_renderFields : ∀ (k : String) (v : Json)
    (ms : List (String × Json)) (f : Nat) (rest : List Char),
    (renderFields ((k, v) :: ms)).length + 1 < f →
    readFields f (renderFields ((k, v) :: ms) ++ '}' :: rest)
      = some ((k, v) :: ms, rest)
  | k, v, [], f, rest, hf => by
      cases f with
      | zero => omega
      | succ f =>
          have harg : renderFields ((k, v) :: []) ++ '}' :: rest
              = '"' :: (k.data.flatMap escChar
                  ++ '"' :: ':' :: ' ' :: (renderJson v ++ '}' :: rest)) := by
            simp [renderFields, renderFieldsTail, renderStr]
          have h2 : (renderFields ((k, v) :: [])).length
              = (renderStr k).length + 2 + (renderJson v).length := by
            simp only [renderFields, renderFieldsTail, List.length_append,
              List.length_cons, List.append_nil]
            omega
          have hv := readJson_renderJson v f ('}' :: rest) (by omega)
            (stopsNum_not_dig '}' rest (by decide))
          rw [harg, readFields_key,
            readStrBody_renderStr k (':' :: ' ' :: (renderJson v ++ '}' :: rest))]
          simp [skipWs, isWs, skipWs_renderJson, hv]
  | k, v, (k2, v2) :: ms2, f, rest, hf => by
      cases f with
      | zero => omega
      | succ f =>
          have harg : renderFields ((k, v) :: (k2, v2) :: ms2) ++ '}' :: rest
              = '"' :: (k.data.flatMap escChar
                  ++ '"' :: ':' :: ' ' :: (renderJson v
                      ++ ',' :: ' ' :: (renderFields ((k2, v2) :: ms2)
                          ++ '}' :: rest))) := by
            simp [renderFields, renderFieldsTail, renderStr]
          have h2 : (renderFields ((k, v) :: (k2, v2) :: ms2)).length
              = (renderStr k).length + 2 + (renderJson v).length + 2
                  + (renderFields ((k2, v2) :: ms2)).length := by
            simp only [renderFields, renderFieldsTail, List.length_append,
              List.length_cons]
            omega
          have hv := readJson_renderJson v f
            (',' :: ' ' :: (renderFields ((k2, v2) :: ms2) ++ '}' :: rest))
            (by omega) (stopsNum_not_dig ',' _ (by decide))
          have hrec := readFields_renderFields k2 v2 ms2 f rest (by omega)
          rw [harg, readFields_key,
            readStrBody_renderStr k (':' :: ' ' :: (renderJson v
              ++ ',' :: ' ' :: (renderFields ((k2, v2) :: ms2) ++ '}' :: rest)))]
          have hshape : ('"' :: (k2.data.flatMap escChar
              ++ '"' :: ':' :: ' ' :: (renderJson v2
                  ++ (renderFieldsTail ms2 ++ '}' :: rest))))
              = renderFields ((k2, v2) :: ms2) ++ '}' :: rest := by
            simp [renderFields, renderStr]
          simp only [skipWs, isWs, skipWs_renderJson, skipWs_renderFields, hv, hrec]
          simp [skipWs, isWs, skipWs_renderJson, skipWs_renderFields, hv, hrec,
            hshape]
termination_by k v ms _ _ _ => sizeOf v + sizeOf ms

end

/-- The codec round trip: the `json.loads` model inverts the
`json.dumps` model on every embedded value. -/
theorem loads_dumps (v : Json) : loads (dumps v) = some v := by
  have hrt := readJson_renderJson v ((renderJson v).length + 1) [] (by omega) rfl
  rw [List.append_nil] at hrt
  simp [loads, dumps, hrt, skipWs]

/-- Claim C2: for every mapping item, restoring after a primary-process
save returns the saved item exactly — key order and every embedded
primitive value included — provided the write itself is not faulted. -/
theorem claim_C2_json_save_restore_roundtrip (fname : Option String) (d : Path)
    (ms : List (String × Json)) (w : World)
    (hio : d.child (JsonCheckpointHandler.create fname).filename ∉ w.ioFailures) :
    ((JsonCheckpointHandler.create fname).save 0 d (.obj ms) w).2 = .ok ()
    ∧ (JsonCheckpointHandler.create fname).restore d none
        ((JsonCheckpointHandler.create fname).save 0 d (.obj ms) w).1.fs
      = .ok (.obj ms) := by
  constructor
  · simp [JsonCheckpointHandler.save, writeTextIO, hio]
  · simp [JsonCheckpointHandler.save, writeTextIO, hio,
      JsonCheckpointHandler.restore, readText_writeText_self, loads_dumps]

/-- Closed instance of `claim_C2_json_save_restore_roundtrip` on the
spec's concrete scenario shape. -/
theorem claim_C2_json_save_restore_roundtrip_witness :
    (Path.child ["ckpt"] (JsonCheckpointHandler.create none).filename
        ∉ (World.mk [] []).ioFailures)
    ∧ (((JsonCheckpointHandler.create none).save 0 ["ckpt"]
          (.obj [("step", .int 3)]) (World.mk [] [])).2 = .ok ()
        ∧ (JsonCheckpointHandler.create none).restore ["ckpt"] none
            ((JsonCheckpointHandler.create none).save 0 ["ckpt"]
              (.obj [("step", .int 3)]) (World.mk [] [])).1.fs
          = .ok (.obj [("step", .int 3)])) :=
  ⟨by decide,
    claim_C2_json_save_restore_roundtrip none ["ckpt"] [("step", .int 3)]
      (World.mk [] []) (by decide)⟩

/-- Claim C8 counterexample: with `filename=""` given at construction,
the file written is named `metadata`, not the given filename — Python's
`filename or 'metadata'` treats the empty string like `None` — so no
file exists under the claimed name. -/
theorem claim_C8_counterexample :
    (JsonCheckpointHandler.create (some "")).filename ≠ claimFileName (some "")
    ∧ ((JsonCheckpointHandler.create (some "")).save 0 ["ckpt"] (.obj [])
          (World.mk [] [])).1.fs
        = writeText [] (Path.child ["ckpt"] "metadata") (dumps (.obj []))
    ∧ readText ((JsonCheckpointHandler.create (some "")).save 0 ["ckpt"] (.obj [])
          (World.mk [] [])).1.fs (Path.child ["ckpt"] (claimFileName (some "")))
        = none := by
  refine ⟨by decide, ?_, ?_⟩
  · simp [JsonCheckpointHandler.save, JsonCheckpointHandler.create, pyStrOr,
      writeTextIO]
  · simp [JsonCheckpointHandler.save, JsonCheckpointHandler.create, pyStrOr,
      writeTextIO, writeText, readText, Path.child, claimFileName]

/-- Claim C8 (amended): on the primary process, `save` performs exactly
one write — the text file `directory / f` holding `json.dumps(item)`,
where `f` is the constructor filename when it is nonempty and
`metadata` when it was `None` (or empty) — and `restore` reads that same
file back into the saved structure. -/
theorem claim_C8_single_file_write (fname : Option String) (d : Path)
    (item : Json) (w : World)
    (hio : d.child (pyStrOr fname "metadata") ∉ w.ioFailures) :
    ((JsonCheckpointHandler.create fname).save 0 d item w).1.fs
        = writeText w.fs (d.child (pyStrOr fname "metadata")) (dumps item)
    ∧ ((JsonCheckpointHandler.create fname).save 0 d item w).1.ioFailures
        = w.ioFailures
    ∧ readText ((JsonCheckpointHandler.create fname).save 0 d item w).1.fs
        (d.child (pyStrOr fname "metadata")) = some (dumps item)
    ∧ (JsonCheckpointHandler.create fname).restore d none
        ((JsonCheckpointHandler.create fname).save 0 d item w).1.fs
      = .ok item := by
  refine ⟨?_, ?_, ?_, ?_⟩ <;>
    simp [JsonCheckpointHandler.save, JsonCheckpointHandler.create, writeTextIO,
      hio, JsonCheckpointHandler.restore, readText_writeText_self, loads_dumps]

/-- Closed instance of `claim_C8_single_file_write` with an explicit
filename. -/
theorem claim_C8_single_file_write_witness :
    (Path.child ["ckpt"] (pyStrOr (some "state") "metadata")
        ∉ (World.mk [] []).ioFailures)
    ∧ (((JsonCheckpointHandler.create (some "state")).save 0 ["ckpt"] (.obj [])
          (World.mk [] [])).1.fs
        = writeText [] (Path.child ["ckpt"] (pyStrOr (some "state") "metadata"))
            (dumps (.obj []))
        ∧ ((JsonCheckpointHandler.create (some "state")).save 0 ["ckpt"] (.obj [])
            (World.mk [] [])).1.ioFailures = (World.mk ([] : FileSystem) ([] : List Path)).ioFailures
        ∧ readText ((JsonCheckpointHandler.create (some "state")).save 0 ["ckpt"]
            (.obj []) (World.mk [] [])).1.fs
            (Path.child ["ckpt"] (pyStrOr (some "state") "metadata"))
          = some (dumps (.obj []))
        ∧ (JsonCheckpointHandler.create (some "state")).restore ["ckpt"] none
            ((JsonCheckpointHandler.create (some "state")).save 0 ["ckpt"]
              (.obj []) (World.mk [] [])).1.fs
          = .ok (.obj [])) :=
  ⟨by decide,
    claim_C8_single_file_write (some "state") ["ckpt"] (.obj []) (World.mk [] [])
      (by decide)⟩

end Orbax
